import Mathlib

/-!
Verification development for the moonshine game-streaming host.

This file gives a shallow embedding of the parts of the source that the
claims talk about:

* `src/src/session/stream/control/mod.rs` — the control-message parser
  (`ControlMessage::from_bytes`) and the receive step of
  `ControlStreamInner::run` (decryption of `Encrypted` envelopes and
  dispatch).
* `src/moonshine/src/webserver/pairing.rs` — the pairing HTTP handlers
  (`pair`, `pin`, `unpair` and the five phase handlers).
* `src/moonshine/src/rtsp/session/audio_stream.rs` —
  `select_sample_rate` and the packetisation step `AudioStream::send_packet`
  (shard construction, Reed-Solomon FEC, RTP framing, sequence/timestamp
  bookkeeping).

Bytes are modelled as `Nat` values (meaningful when `< 256`); byte buffers
as `List Nat`.  Machine integers use explicit `% 2^w` where the source can
wrap.  Fallible Rust code that returns `Result` is modelled with
`Option`/explicit error constructors; code paths that panic in Rust
(out-of-bounds slice indexing, `usize` subtraction underflow, `unwrap`,
`panic!`, `todo!`) are modelled with an explicit `panicked`/`none`
constructor, as noted at each definition.
-/

set_option maxRecDepth 100000

namespace Moonshine

/-! ## Byte-level helpers -/

/-- Little-endian 16-bit value from two bytes (`u16::from_le_bytes`). -/
def u16le (b0 b1 : Nat) : Nat := b0 + 256 * b1

/-- Little-endian 32-bit value from four bytes (`u32::from_le_bytes`). -/
def u32le (b0 b1 b2 b3 : Nat) : Nat := b0 + 256 * b1 + 65536 * b2 + 16777216 * b3

/-- Big-endian 32-bit value from four bytes (`u32::from_be_bytes`). -/
def u32be (b0 b1 b2 b3 : Nat) : Nat := 16777216 * b0 + 65536 * b1 + 256 * b2 + b3

/-! ## Control message parsing

Embedding of `ControlMessage::from_bytes` from
`src/src/session/stream/control/mod.rs` (lines 74-128).  The source first
requires at least 4 header bytes, then requires the declared little-endian
length at offset 2 to equal `buffer.len() - 4`, then dispatches on the
little-endian type tag at offset 0.  An unknown tag is an error (the `?` on
`try_into`).  In the `InputData` arm the source reads `buffer[4..8]`
without checking that the buffer has 8 bytes, so a 4..7-byte buffer whose
declared length matches panics with an out-of-bounds slice; this is the
`panicked` result below. -/

/-- Control message variants, as in the source `ControlMessage` enum.
The `encrypted` variant stores the declared length, the sequence number,
the 16-byte GCM tag and the remaining ciphertext. -/
inductive CtrlMsg where
  | encrypted (length : Nat) (sequence_number : Nat) (tag : List Nat) (payload : List Nat)
  | ping
  | termination
  | rumbleData
  | lossStats
  | frameStats
  | inputData (payload : List Nat)
  | invalidateReferenceFrames
  | requestIdrFrame
  | startA
  | startB
  deriving DecidableEq, Repr

/-- Result of `ControlMessage::from_bytes`: a parsed message, a parse error
(`Err(())` in the source), or a Rust panic. -/
inductive ParseResult where
  | ok (m : CtrlMsg)
  | err
  | panicked
  deriving DecidableEq, Repr

/-- `MINIMUM_ENCRYPTED_LENGTH` from the source: sequence number + tag +
control message id. -/
def MINIMUM_ENCRYPTED_LENGTH : Nat := 4 + 16 + 4

/-- Embedding of `ControlMessage::from_bytes`.  Follows the source
line by line; see the section comment for the panic in the `InputData`
arm. -/
def from_bytes (buffer : List Nat) : ParseResult :=
  if buffer.length < 4 then .err
  else
    let length := u16le (buffer.getD 2 0) (buffer.getD 3 0)
    if length ≠ buffer.length - 4 then .err
    else
      let ty := u16le (buffer.getD 0 0) (buffer.getD 1 0)
      if ty = 0x0001 then
        -- Encrypted
        if buffer.length < MINIMUM_ENCRYPTED_LENGTH then .err
        else if length < MINIMUM_ENCRYPTED_LENGTH then .err
        else
          .ok (.encrypted length
            (u32le (buffer.getD 4 0) (buffer.getD 5 0) (buffer.getD 6 0) (buffer.getD 7 0))
            ((buffer.drop 8).take 16)
            (buffer.drop 24))
      else if ty = 0x0200 then .ok .ping
      else if ty = 0x0100 then .ok .termination
      else if ty = 0x010b then .ok .rumbleData
      else if ty = 0x0201 then .ok .lossStats
      else if ty = 0x0204 then .ok .frameStats
      else if ty = 0x0206 then
        -- InputData: the source reads buffer[4..8] with no length check.
        if buffer.length < 8 then .panicked
        else
          let plen := u32be (buffer.getD 4 0) (buffer.getD 5 0) (buffer.getD 6 0) (buffer.getD 7 0)
          if plen ≠ buffer.length - 8 then .err
          else .ok (.inputData (buffer.drop 8))
      else if ty = 0x0301 then .ok .invalidateReferenceFrames
      else if ty = 0x0302 then .ok .requestIdrFrame
      else if ty = 0x0305 then .ok .startA
      else if ty = 0x0307 then .ok .startB
      else .err

/-! ## Control stream receive step

Embedding of the `Event::Receive` arm of `ControlStreamInner::run`
(lines 248-307).  The abstract AES-128-GCM decryption is a parameter
`decrypt key iv ciphertext tag`, returning `some plaintext` on success and
`none` on tag-verification failure, exactly the shape of
`openssl::symm::decrypt_aead`.  The step result records whether the loop
continues (and with which dispatch effect) or whether `run` returns
`Err(())`, which tears down the control stream and triggers the session's
shutdown manager. -/

/-- What the dispatch arm of the control loop does with a message. -/
inductive CtrlEffect where
  | dropped                      -- decryption or inner parse failed; `continue`
  | requestIdr                   -- RequestIdrFrame / InvalidateReferenceFrames
  | startStreams                 -- StartB: start audio then video
  | pingReset                    -- Ping: reset the keepalive deadline
  | inputForward (payload : List Nat)  -- InputData forwarded to the input handler
  | skipped                      -- any other known message, logged and ignored
  deriving DecidableEq, Repr

/-- Outcome of handling one received packet in the control loop. -/
inductive CtrlStep where
  | cont (effect : CtrlEffect)   -- the loop continues
  | terminated                   -- `run` returns `Err(())`: stream and session stop
  | panicked                     -- a Rust panic (`unreachable!` or slice OOB)
  deriving DecidableEq, Repr

/-- The dispatch `match` at the bottom of the receive arm.  The
`Encrypted` case is the source's `unreachable!(..)` panic; it can only be
reached when a decrypted payload parses as another `Encrypted` message. -/
def dispatchMsg : CtrlMsg → CtrlStep
  | .encrypted _ _ _ _ => .panicked
  | .requestIdrFrame => .cont .requestIdr
  | .invalidateReferenceFrames => .cont .requestIdr
  | .startB => .cont .startStreams
  | .ping => .cont .pingReset
  | .inputData p => .cont (.inputForward p)
  | _ => .cont .skipped

/-- The 16-byte GCM IV built by the source: first byte
`sequence_number as u8`, remaining 15 bytes zero. -/
def controlIv (sequence_number : Nat) : List Nat :=
  sequence_number % 256 :: List.replicate 15 0

/-- Embedding of the `Event::Receive` arm of `ControlStreamInner::run`.
`ControlMessage::from_bytes(packet.data())?` propagates a parse error out
of `run`, so a packet that fails to parse yields `terminated`.  A parsed
`Encrypted` envelope is decrypted with the session's remote-input key and
`controlIv`; on decryption failure or on a parse failure of the decrypted
plaintext the source `continue`s (`cont .dropped`). -/
def handlePacket (decrypt : List Nat → List Nat → List Nat → List Nat → Option (List Nat))
    (remote_input_key : List Nat) (packet : List Nat) : CtrlStep :=
  match from_bytes packet with
  | .panicked => .panicked
  | .err => .terminated
  | .ok msg =>
    match msg with
    | .encrypted _ seq tag payload =>
      match decrypt remote_input_key (controlIv seq) payload tag with
      | none => .cont .dropped
      | some plaintext =>
        match from_bytes plaintext with
        | .panicked => .panicked
        | .err => .cont .dropped
        | .ok m2 => dispatchMsg m2
    | m => dispatchMsg m

/-! ### Concrete inputs used by witnesses and counterexamples -/

/-- A decrypt oracle that always succeeds with plaintext `[0]` (which is
itself too short to parse). -/
def decryptConst0 : List Nat → List Nat → List Nat → List Nat → Option (List Nat) :=
  fun _ _ _ _ => some [0]

/-- A decrypt oracle that always fails tag verification. -/
def decryptFail : List Nat → List Nat → List Nat → List Nat → Option (List Nat) :=
  fun _ _ _ _ => none

/-- A 28-byte wire packet of type `Encrypted` (tag 0x0001 LE), declared
length 24, sequence number 0, all-zero GCM tag, 4-byte ciphertext. -/
def encPacketA : List Nat :=
  [1, 0, 24, 0, 0, 0, 0, 0] ++ List.replicate 16 0 ++ [9, 9, 9, 9]

/-- A 28-byte wire packet of type `Encrypted`, declared length 24,
sequence number 258 (LE bytes 2,1,0,0), all-zero GCM tag, 4-byte
ciphertext. -/
def encPacketB : List Nat :=
  [1, 0, 24, 0, 2, 1, 0, 0] ++ List.replicate 16 0 ++ [7, 7, 7, 7]

/-! ## Audio sample-rate selection

Embedding of `select_sample_rate` from
`src/moonshine/src/rtsp/session/audio_stream.rs` (lines 23-39).  The
codec's `supported_samplerates` C array is modelled as
`Option (List Int)`: `some` for a non-null pointer, `none` for null.  The
source returns 44100 immediately when the pointer is NOT null, and when
the pointer is null it initialises `p` to that null pointer so the search
loop body never runs and `best_samplerate` stays 0; the loop body is dead
code in both cases. -/

/-- Embedding of `select_sample_rate`.  Note the inverted null check in
the source: a codec that reports a samplerate list gets 44100 regardless
of the list, and a codec that reports none gets 0. -/
def select_sample_rate (supported_samplerates : Option (List Int)) : Nat :=
  if supported_samplerates.isSome then
    44100
  else
    -- p is null, the `while !p.is_null()` loop never runs,
    -- best_samplerate remains 0
    0

/-! ## Pairing webserver

Embedding of `src/moonshine/src/webserver/pairing.rs`.  Query parameters
are modelled as an association list (the handlers in the source receive an
already-parsed `Params` map).  The cryptographic primitives
(SHA-256, AES-128-ECB, RSA signing, X.509 parsing) and the random 16-byte
secrets are abstract parameters collected in `PairingOracles`; the
handlers are faithful to the source's control flow, including every
`unwrap`/`panic!`/`todo!` path, which are modelled as `panicked`. -/

/-- Query parameters as an association list. -/
abbrev Params : Type := List (String × String)

/-- `params.get(key)`: first binding of the key. -/
def getParam (params : Params) (key : String) : Option String :=
  (List.find? (fun p => p.1 == key) params).map (fun p => p.2)

/-- Value of one hex digit, or `none` for a non-hex character. -/
def hexDigitVal (c : Char) : Option Nat :=
  if '0' ≤ c ∧ c ≤ '9' then some (c.toNat - 48)
  else if 'a' ≤ c ∧ c ≤ 'f' then some (c.toNat - 87)
  else if 'A' ≤ c ∧ c ≤ 'F' then some (c.toNat - 55)
  else none

/-- Pairwise hex decoding of a character list; `none` on odd length or a
bad digit, like `hex::decode`. -/
def hexPairs : List Char → Option (List Nat)
  | [] => some []
  | [_] => none
  | c1 :: c2 :: rest => do
      let hi ← hexDigitVal c1
      let lo ← hexDigitVal c2
      let r ← hexPairs rest
      pure ((16 * hi + lo) :: r)

/-- `hex::decode` on a string. -/
def hexDecode (s : String) : Option (List Nat) :=
  hexPairs s.data

/-- An X.509 certificate, abstracted to the only part the pairing code
reads: its signature bytes. -/
structure Cert where
  signature : List Nat
  deriving DecidableEq, Repr

/-- The per-client pairing record (`struct Client`); the one-shot pin
notification is omitted (it carries no data). -/
structure Client where
  id : String
  pem : Cert
  salt : List Nat
  key : Option (List Nat)
  server_secret : Option (List Nat)
  server_challenge : Option (List Nat)
  client_hash : Option (List Nat)
  deriving DecidableEq, Repr

/-- The clients map, keyed by unique id. -/
abbrev ClientsMap : Type := List (String × Client)

/-- Map lookup. -/
def clientsGet (clients : ClientsMap) (uid : String) : Option Client :=
  (List.find? (fun p => p.1 == uid) clients).map (fun p => p.2)

/-- Map removal. -/
def clientsRemove (uid : String) (clients : ClientsMap) : ClientsMap :=
  List.filter (fun p => p.1 != uid) clients

/-- Map insertion (replacing any previous binding). -/
def clientsInsert (uid : String) (c : Client) (clients : ClientsMap) : ClientsMap :=
  (uid, c) :: clientsRemove uid clients

/-- Abstract cryptographic primitives and randomness used by the pairing
handlers.  `aesEncrypt`/`aesDecrypt` take (input, key) and model
AES-128-ECB with padding disabled; `randSecret`/`randChallenge` are the
16-byte values `rand_bytes` produces in this request. -/
structure PairingOracles where
  sha256 : List Nat → List Nat
  parseX509 : List Nat → Option Cert
  serverCert : Cert
  serverCertPem : List Nat
  aesEncrypt : List Nat → List Nat → List Nat
  aesDecrypt : List Nat → List Nat → List Nat
  rsaSign : List Nat → List Nat
  randSecret : List Nat
  randChallenge : List Nat

/-- Body of an HTTP response, abstracted to what the claims distinguish:
the fixed paired XML envelope (with the name of its extra element, if
any), a plain-text body, or the bare "INVALID REQUEST" body. -/
inductive RespBody where
  | pairedXml (extraElement : Option String)
  | plainText
  | invalidRequest
  deriving DecidableEq, Repr

/-- An HTTP response: status code, the value of the header named
`CONTENT_TYPE` that `Response::builder().header(..)` sets (the source
never sets a standard `Content-Type` header), and the body kind. -/
structure HttpResponse where
  status : Nat
  header_CONTENT_TYPE : Option String
  body : RespBody
  deriving DecidableEq, Repr

/-- Result of a pairing handler: a response together with the resulting
clients map, or a Rust panic. -/
inductive HandlerResult where
  | resp (r : HttpResponse) (clients : ClientsMap)
  | panicked
  deriving DecidableEq, Repr

/-- The response a handler produced, if it did not panic. -/
def HandlerResult.response? : HandlerResult → Option HttpResponse
  | .resp r _ => some r
  | .panicked => none

/-- Modelled from the spec: `bad_request` is defined in the webserver
module, which is not among the provided sources; per the spec every
malformed request or unknown uniqueid is answered with HTTP 400. -/
def bad_request : HttpResponse := ⟨400, none, .invalidRequest⟩

/-- The successful pairing-phase response shape: status 200 (builder
default), header `CONTENT_TYPE: application/xml`, paired XML envelope. -/
def xmlOk (extraElement : Option String) : HttpResponse :=
  ⟨200, some ("application/xml"), .pairedXml extraElement⟩

/-- Embedding of `unpair` (lines 35-59): missing uniqueid or unknown
client is a 400; success removes the client and answers 200 with the
plain-text body "Successfully unpaired." and no content-type header. -/
def unpair (params : Params) (clients : ClientsMap) : HandlerResult :=
  match getParam params ("uniqueid") with
  | none => .resp bad_request clients
  | some uid =>
    match clientsGet clients uid with
    | some _ => .resp ⟨200, none, .plainText⟩ (clientsRemove uid clients)
    | none => .resp bad_request clients

/-- Embedding of `create_key` (lines 383-388):
`SHA-256(salt ++ pin)[..16]`.  The `[..16]` slice panics (`none`) if the
digest oracle returns fewer than 16 bytes. -/
def create_key (o : PairingOracles) (salt : List Nat) (pin : String) : Option (List Nat) :=
  let digest := o.sha256 (salt ++ pin.data.map Char.toNat)
  if digest.length < 16 then none else some (digest.take 16)

/-- Embedding of `pin` (lines 61-96): computes the derived key, stores it
on the client, notifies waiters, and answers 200 with a plain-text body
("Successfully received pin ...") and no content-type header. -/
def pinHandler (o : PairingOracles) (params : Params) (clients : ClientsMap) : HandlerResult :=
  match getParam params ("uniqueid") with
  | none => .resp bad_request clients
  | some uid =>
  match getParam params ("pin") with
  | none => .resp bad_request clients
  | some pinStr =>
  match clientsGet clients uid with
  | none => .resp bad_request clients
  | some c =>
    match create_key o c.salt pinStr with
    | none => .panicked
    | some k =>
      .resp ⟨200, none, .plainText⟩ (clientsInsert uid { c with key := some k } clients)

/-- Embedding of `get_server_cert` (lines 98-155).  `hex::decode(..)
.unwrap()`, `X509::from_pem(..).unwrap()` and `salt.try_into().unwrap()`
(16 bytes) panic on failure.  The source then blocks until a `/pin`
request arrives; the modelled response is the one eventually sent, while
the client record insertion is visible immediately. -/
def get_server_cert (o : PairingOracles) (params : Params) (clients : ClientsMap) :
    HandlerResult :=
  match getParam params ("clientcert") with
  | none => .resp bad_request clients
  | some ccHex =>
  match hexDecode ccHex with
  | none => .panicked
  | some ccBytes =>
  match getParam params ("uniqueid") with
  | none => .resp bad_request clients
  | some uid =>
  match getParam params ("salt") with
  | none => .resp bad_request clients
  | some saltHex =>
  match hexDecode saltHex with
  | none => .panicked
  | some salt =>
  match o.parseX509 ccBytes with
  | none => .panicked
  | some pem =>
  if salt.length ≠ 16 then .panicked
  else
    .resp (xmlOk (some ("plaincert")))
      (clientsInsert uid ⟨uid, pem, salt, none, none, none, none⟩ clients)

/-- Embedding of `client_challenge` (lines 157-219).  Unknown uniqueid or
missing derived key is a 400.  The AES helper functions in the source
panic when input and output lengths differ. -/
def client_challenge (o : PairingOracles) (params : Params) (clients : ClientsMap) :
    HandlerResult :=
  match getParam params ("clientchallenge") with
  | none => .resp bad_request clients
  | some chHex =>
  match hexDecode chHex with
  | none => .panicked
  | some challenge =>
  match getParam params ("uniqueid") with
  | none => .resp bad_request clients
  | some uid =>
  match clientsGet clients uid with
  | none => .resp bad_request clients
  | some c =>
  match c.key with
  | none => .resp bad_request clients
  | some key =>
    let decrypted := o.aesDecrypt challenge key
    if decrypted.length ≠ challenge.length then .panicked
    else
      let data := decrypted ++ o.serverCert.signature ++ o.randSecret
      let challenge_response := o.sha256 data ++ o.randChallenge
      let encrypted := o.aesEncrypt challenge_response key
      if encrypted.length ≠ challenge_response.length then .panicked
      else
        .resp (xmlOk (some ("challengeresponse")))
          (clientsInsert uid
            { c with server_secret := some o.randSecret,
                     server_challenge := some o.randChallenge } clients)

/-- Embedding of `server_challenge_response` (lines 221-273).  The client
hash is stored, then `client.server_secret.unwrap()` panics when the
`clientchallenge` phase has not run. -/
def server_challenge_response (o : PairingOracles) (params : Params) (clients : ClientsMap) :
    HandlerResult :=
  match getParam params ("serverchallengeresp") with
  | none => .resp bad_request clients
  | some srHex =>
  match hexDecode srHex with
  | none => .panicked
  | some serverChallengeResp =>
  match getParam params ("uniqueid") with
  | none => .resp bad_request clients
  | some uid =>
  match clientsGet clients uid with
  | none => .resp bad_request clients
  | some c =>
  match c.key with
  | none => .resp bad_request clients
  | some key =>
    let decrypted := o.aesDecrypt serverChallengeResp key
    if decrypted.length ≠ serverChallengeResp.length then .panicked
    else
      match c.server_secret with
      | none => .panicked
      | some _ =>
        .resp (xmlOk (some ("pairingsecret")))
          (clientsInsert uid { c with client_hash := some decrypted } clients)

/-- Embedding of `client_pairing_secret` (lines 275-327).  A decoded
secret whose length is not exactly 272 hits an explicit `panic!`; the
`server_challenge`/`client_hash` `unwrap()`s panic when their phases have
not run; a hash mismatch is a 400 ("MITM?"); the clients map is left
unchanged in both non-panicking outcomes. -/
def client_pairing_secret (o : PairingOracles) (params : Params) (clients : ClientsMap) :
    HandlerResult :=
  match getParam params ("clientpairingsecret") with
  | none => .resp bad_request clients
  | some csHex =>
  match hexDecode csHex with
  | none => .panicked
  | some clientPairingSecret =>
  match getParam params ("uniqueid") with
  | none => .resp bad_request clients
  | some uid =>
  match clientsGet clients uid with
  | none => .resp bad_request clients
  | some c =>
  if clientPairingSecret.length ≠ 256 + 16 then .panicked
  else
    let client_secret := clientPairingSecret.take 16
    match c.server_challenge with
    | none => .panicked
    | some sc =>
    match c.client_hash with
    | none => .panicked
    | some ch =>
      let data := sc ++ c.pem.signature ++ client_secret
      if o.sha256 data ≠ ch then .resp bad_request clients
      else .resp (xmlOk none) clients

/-- Embedding of `pair_challenge` (lines 329-353). -/
def pair_challenge (params : Params) (clients : ClientsMap) : HandlerResult :=
  match getParam params ("uniqueid") with
  | none => .resp bad_request clients
  | some uid =>
    if (clientsGet clients uid).isSome then .resp (xmlOk none) clients
    else .resp bad_request clients

/-- Embedding of the `pair` dispatcher (lines 355-381).  An unknown
`phrase` answers 400 with body "INVALID REQUEST"; a request with none of
the recognised parameters hits `todo!()`, which panics. -/
def pair (o : PairingOracles) (params : Params) (clients : ClientsMap) : HandlerResult :=
  if (getParam params ("phrase")).isSome then
    match getParam params ("phrase") with
    | some ("getservercert") => get_server_cert o params clients
    | some ("pairchallenge") => pair_challenge params clients
    | _ => .resp ⟨400, none, .invalidRequest⟩ clients
  else if (getParam params ("clientchallenge")).isSome then
    client_challenge o params clients
  else if (getParam params ("serverchallengeresp")).isSome then
    server_challenge_response o params clients
  else if (getParam params ("clientpairingsecret")).isSome then
    client_pairing_secret o params clients
  else
    .panicked

/-! ### Concrete pairing inputs used by witnesses and counterexamples -/

/-- A concrete oracle assignment for evaluating the handlers. -/
def oracleZ : PairingOracles where
  sha256 := fun _ => List.replicate 32 0
  parseX509 := fun _ => some ⟨[1]⟩
  serverCert := ⟨[2]⟩
  serverCertPem := [3]
  aesEncrypt := fun p _ => p
  aesDecrypt := fun c _ => c
  rsaSign := fun _ => List.replicate 256 0
  randSecret := List.replicate 16 1
  randChallenge := List.replicate 16 2

/-- An oracle whose SHA-256 constantly returns `[9]`, for exercising the
hash comparison in `client_pairing_secret`. -/
def oracleH : PairingOracles where
  sha256 := fun _ => [9]
  parseX509 := fun _ => some ⟨[1]⟩
  serverCert := ⟨[2]⟩
  serverCertPem := [3]
  aesEncrypt := fun p _ => p
  aesDecrypt := fun c _ => c
  rsaSign := fun _ => List.replicate 256 0
  randSecret := List.replicate 16 1
  randChallenge := List.replicate 16 2

/-- A fully populated client record for uniqueid "abc". -/
def clientFull : Client :=
  ⟨"abc", ⟨[1]⟩, List.replicate 16 0, some (List.replicate 16 4),
    some (List.replicate 16 1), some (List.replicate 16 3), some [9]⟩

/-- A clients map holding `clientFull` under "abc". -/
def clientsFull : ClientsMap := [("abc", clientFull)]

/-- A client record that completed `/pin` but not `clientchallenge`:
key set, `server_secret`, `server_challenge` and `client_hash` unset. -/
def clientKeyOnly : Client :=
  ⟨"abc", ⟨[1]⟩, List.replicate 16 0, some (List.replicate 16 4), none, none, none⟩

/-- A clients map holding `clientKeyOnly` under "abc". -/
def clientsKeyOnly : ClientsMap := [("abc", clientKeyOnly)]

/-- 544 zero characters: the hex encoding of 272 zero bytes. -/
def hex544 : String := String.mk (List.replicate 544 '0')

/-! ## GF(2^8) arithmetic and Reed-Solomon(4,2)

Modelled from the spec: the Reed-Solomon computation itself is performed
by the external `reed_solomon` crate, which is not part of the provided
sources.  The spec fixes its contract: "Parity is computed by Reed-Solomon
over GF(2^8) such that any `K` of the `K+M` shards reconstruct the
original", with `K = 4` data shards and `M = 2` parity shards.  We model a
systematic Reed-Solomon code over GF(2^8) (reduction polynomial 0x11d):
encoding applies the 6x4 matrix whose top four rows are the identity and
whose parity rows are `[1,1,1,1]` and `[1,2,4,8]`, byte position by byte
position; decoding from any 4 surviving shards applies the inverse of the
corresponding 4x4 submatrix, tabulated in `rsPatternTable`. -/

/-- Multiplication by x in GF(2^8) with reduction polynomial 0x11d. -/
def xtime (x : Nat) : Nat := if x * 2 ≥ 256 then (x * 2) ^^^ 285 else x * 2

/-- Russian-peasant GF(2^8) multiplication, iterating over `n` bits of the
first factor. -/
def gfMulFuel : Nat → Nat → Nat → Nat
  | 0, _, _ => 0
  | n + 1, a, b => (if a % 2 = 1 then b else 0) ^^^ gfMulFuel n (a / 2) (xtime b)

/-- GF(2^8) multiplication (first factor below 256). -/
def gfMul (a b : Nat) : Nat := gfMulFuel 8 a b

/-- Componentwise xor of two byte vectors. -/
def xorVec (u v : List Nat) : List Nat := List.zipWith (fun a b => a ^^^ b) u v

/-- One byte position of the systematic encode: data bytes
`[d0, d1, d2, d3]` become the six bytes of the data and parity shards at
that position. -/
def rsEncodeByte (d : List Nat) : List Nat :=
  let d0 := d.getD 0 0
  let d1 := d.getD 1 0
  let d2 := d.getD 2 0
  let d3 := d.getD 3 0
  [d0, d1, d2, d3,
    d0 ^^^ d1 ^^^ d2 ^^^ d3,
    d0 ^^^ gfMul 2 d1 ^^^ gfMul 4 d2 ^^^ gfMul 8 d3]

/-- The fifteen 4-element survivor sets of the six shards (erasing any two
shards), each with the GF(2^8) inverse of the corresponding 4x4 submatrix
of the encoding matrix. -/
def rsPatternTable : List (List Nat × List (List Nat)) :=
  [([0, 1, 2, 3], [[1, 0, 0, 0], [0, 1, 0, 0], [0, 0, 1, 0], [0, 0, 0, 1]]),
   ([0, 1, 2, 4], [[1, 0, 0, 0], [0, 1, 0, 0], [0, 0, 1, 0], [1, 1, 1, 1]]),
   ([0, 1, 2, 5], [[1, 0, 0, 0], [0, 1, 0, 0], [0, 0, 1, 0], [173, 71, 142, 173]]),
   ([0, 1, 3, 4], [[1, 0, 0, 0], [0, 1, 0, 0], [1, 1, 1, 1], [0, 0, 1, 0]]),
   ([0, 1, 3, 5], [[1, 0, 0, 0], [0, 1, 0, 0], [71, 142, 2, 71], [0, 0, 1, 0]]),
   ([0, 1, 4, 5], [[1, 0, 0, 0], [0, 1, 0, 0], [200, 143, 245, 61], [201, 142, 244, 61]]),
   ([0, 2, 3, 4], [[1, 0, 0, 0], [1, 1, 1, 1], [0, 1, 0, 0], [0, 0, 1, 0]]),
   ([0, 2, 3, 5], [[1, 0, 0, 0], [142, 2, 4, 142], [0, 1, 0, 0], [0, 0, 1, 0]]),
   ([0, 2, 4, 5], [[1, 0, 0, 0], [123, 245, 166, 221], [0, 1, 0, 0], [122, 244, 167, 221]]),
   ([0, 3, 4, 5], [[1, 0, 0, 0], [143, 2, 245, 122], [142, 3, 244, 122], [0, 1, 0, 0]]),
   ([1, 2, 3, 4], [[1, 1, 1, 1], [1, 0, 0, 0], [0, 1, 0, 0], [0, 0, 1, 0]]),
   ([1, 2, 3, 5], [[2, 4, 8, 1], [1, 0, 0, 0], [0, 1, 0, 0], [0, 0, 1, 0]]),
   ([1, 2, 4, 5], [[187, 210, 156, 157], [1, 0, 0, 0], [0, 1, 0, 0], [186, 211, 157, 157]]),
   ([1, 3, 4, 5], [[245, 247, 166, 167], [1, 0, 0, 0], [244, 246, 167, 167], [0, 1, 0, 0]]),
   ([2, 3, 4, 5], [[2, 6, 245, 244], [3, 7, 244, 244], [1, 0, 0, 0], [0, 1, 0, 0]])]

/-- The fifteen survivor sets. -/
def rsPatterns : List (List Nat) := rsPatternTable.map (fun p => p.1)

/-- The tabulated inverse matrix for a survivor set. -/
def rsInv (s : List Nat) : List (List Nat) :=
  ((rsPatternTable.find? (fun p => p.1 == s)).map (fun p => p.2)).getD []

/-- GF(2^8) dot product of a matrix row with a 4-byte vector. -/
def rowDot (row w : List Nat) : Nat :=
  gfMul (row.getD 0 0) (w.getD 0 0) ^^^ gfMul (row.getD 1 0) (w.getD 1 0) ^^^
    gfMul (row.getD 2 0) (w.getD 2 0) ^^^ gfMul (row.getD 3 0) (w.getD 3 0)

/-- The bytes of the shards listed in `s`, at one byte position. -/
def selectVec (s e : List Nat) : List Nat := s.map (fun i => e.getD i 0)

/-- Decode one byte position from the four surviving shard bytes `w` of
survivor set `s`. -/
def rsDecodeByte (s w : List Nat) : List Nat :=
  (rsInv s).map (fun row => rowDot row w)

/-- Encode one byte position, keep only the survivors of `s`, decode. -/
def rsReconstructByte (s d : List Nat) : List Nat :=
  rsDecodeByte s (selectVec s (rsEncodeByte d))

/-- The 4-byte vector with `x` at position `i` and zeroes elsewhere. -/
def unitVec (i x : Nat) : List Nat :=
  match i with
  | 0 => [x, 0, 0, 0]
  | 1 => [0, x, 0, 0]
  | 2 => [0, 0, x, 0]
  | _ => [0, 0, 0, x]

/-- Exhaustive check that `xtime` maps bytes to bytes. -/
def xtimeLtCheck : Bool :=
  (List.range 256).all (fun x => xtime x < 256)

/-- Exhaustive check that a power of two xors with anything below it by
plain addition: `2^k ^^^ a = 2^k + a` for `a < 2^k`, `k < 9`. -/
def powSplitCheck : Bool :=
  (List.range 9).all (fun k => (List.range (2 ^ k)).all (fun a =>
    (2 ^ k ^^^ a) == 2 ^ k + a))

/-- Exhaustive check of the reconstruction identity on the bit basis:
for every survivor set and shard index, the zero vector and the unit
vectors holding a single power of two survive erasure and decoding
unchanged. -/
def rsUnitCheck : Bool :=
  rsPatterns.all (fun s => (List.range 4).all (fun i =>
    (rsReconstructByte s (unitVec i 0) == unitVec i 0) &&
    (List.range 8).all (fun k =>
      rsReconstructByte s (unitVec i (2 ^ k)) == unitVec i (2 ^ k))))

/-! ## Audio packetisation

Embedding of `AudioStream::send_packet` from
`src/moonshine/src/rtsp/session/audio_stream.rs` (lines 195-261), with
`RTPA_DATA_SHARDS = 4` and `RTPA_FEC_SHARDS = 2`. -/

/-- Embedding of the data-shard construction loop (lines 215-223) for one
shard index: `start = i * S`, `end = min((i+1) * S, L)`, and the shard is
`packet[start..end]` zero-padded to length `S`.  When `end < start` the
source's `end - start` is a `usize` subtraction that panics (and the slice
`packet_data[start..end]` would too); that is the `none` result.  This
happens exactly when `i * S > L`, e.g. for packets of length 1, 2 or 5. -/
def buildDataShard (packet : List Nat) (S i : Nat) : Option (List Nat) :=
  let start := i * S
  let endIdx := min ((i + 1) * S) packet.length
  if endIdx < start then none
  else some (((packet.drop start).take (endIdx - start)) ++
    List.replicate (S - (endIdx - start)) 0)

/-- The shard size `S = ceil(L / 4)` computed as the source does:
`payload_size = (packet_data.len() + nr_data_shards - 1) / nr_data_shards`. -/
def shardSize (L : Nat) : Nat := (L + 4 - 1) / 4

/-- The four data shards. -/
def buildDataShards (packet : List Nat) : Option (List (List Nat)) :=
  let S := shardSize packet.length
  match buildDataShard packet S 0, buildDataShard packet S 1,
      buildDataShard packet S 2, buildDataShard packet S 3 with
  | some s0, some s1, some s2, some s3 => some [s0, s1, s2, s3]
  | _, _, _, _ => none

/-- The bytes of all shards at one byte position. -/
def bytesAt (shards : List (List Nat)) (t : Nat) : List Nat :=
  shards.map (fun sh => sh.getD t 0)

/-- The FEC step of `send_packet`: build the four data shards, append two
parity shards and Reed-Solomon encode in place.  The in-place `encode` of
the crate leaves the data shards unchanged and fills the parity shards;
here the parity shards are computed byte position by byte position with
`rsEncodeByte`.  `none` models the panic in the shard loop (see
`buildDataShard`); the crate also rejects empty shards (`S = 0`, an
empty packet), which the source's `?` turns into a stream error. -/
def fecEncode (packet : List Nat) : Option (List (List Nat)) :=
  match buildDataShards packet with
  | none => none
  | some ds =>
    let S := shardSize packet.length
    if S = 0 then none
    else
      some (ds ++
        [(List.range S).map (fun t => (rsEncodeByte (bytesAt ds t)).getD 4 0),
         (List.range S).map (fun t => (rsEncodeByte (bytesAt ds t)).getD 5 0)])

/-- Modelled from the spec: `RtpHeader::serialize` lives in
`rtsp/session/rtp.rs`, which is not among the provided sources.  The
spec's wire format is a 12-byte header: `u8` flags 0x80, `u8` payload
type 0x61 (Audio), big-endian `u16` sequence number, big-endian `u32`
timestamp, `u32` ssrc 0, with the payload shard at offset 12. -/
def rtpSerialize (sequence_number timestamp : Nat) : List Nat :=
  [0x80, 0x61, sequence_number / 256 % 256, sequence_number % 256,
   timestamp / 16777216 % 256, timestamp / 65536 % 256,
   timestamp / 256 % 256, timestamp % 256,
   0, 0, 0, 0]

/-- Size of the serialized RTP header. -/
def RTP_HEADER_SIZE : Nat := 12

/-- The mutable per-stream RTP counters of `AudioStream`:
`sequence_number` is a `u16` (wrapping on overflow in release builds),
`timestamp` a `u32`. -/
structure AudioState where
  sequence_number : Nat
  timestamp : Nat
  deriving DecidableEq, Repr

/-- Embedding of `AudioStream::send_packet` after a client address is
known: returns the UDP datagrams sent, in order, and the updated
counters.  The source first sends the raw encoded packet itself
(`self.socket.send_to(data, ..)`, line 201), then runs the FEC step, then
sends one datagram per shard: serialized RTP header (sequence number
incremented once per shard, all shards sharing the current timestamp)
followed by the shard bytes; finally the timestamp advances by
`packet_duration`.  On the `none` path (FEC panic or error) the raw
packet datagram has already been sent before the failure. -/
def send_packet (packet_duration : Nat) (st : AudioState) (packet : List Nat) :
    Option (List (List Nat) × AudioState) :=
  match fecEncode packet with
  | none => none
  | some shards =>
    some (packet :: (List.range shards.length).map (fun i =>
        rtpSerialize ((st.sequence_number + i) % 65536) st.timestamp ++ shards.getD i []),
      ⟨(st.sequence_number + shards.length) % 65536,
       (st.timestamp + packet_duration) % 4294967296⟩)

/-- Big-endian sequence number carried at offsets 2-3 of a datagram. -/
def seqOfDatagram (d : List Nat) : Nat := 256 * d.getD 2 0 + d.getD 3 0

/-- Big-endian timestamp carried at offsets 4-7 of a datagram. -/
def tsOfDatagram (d : List Nat) : Nat :=
  16777216 * d.getD 4 0 + 65536 * d.getD 5 0 + 256 * d.getD 6 0 + d.getD 7 0

/-! ### Concrete audio inputs used by witnesses and counterexamples -/

/-- The datagrams emitted for the packet `[1, 2, 3, 4]` from the initial
counters. -/
def dgramsA : List (List Nat) :=
  ((send_packet 5 ⟨0, 0⟩ [1, 2, 3, 4]).map Prod.fst).getD []

/-- The updated counters for the packet `[1, 2, 3, 4]`. -/
def stA : AudioState :=
  ((send_packet 5 ⟨0, 0⟩ [1, 2, 3, 4]).map Prod.snd).getD ⟨0, 0⟩

/-- The datagrams emitted for the packet `[9, 8, 7]` from counters
`(10, 20)` with packet duration 3. -/
def dgramsC : List (List Nat) :=
  ((send_packet 3 ⟨10, 20⟩ [9, 8, 7]).map Prod.fst).getD []

/-- The updated counters for the packet `[9, 8, 7]`. -/
def stC : AudioState :=
  ((send_packet 3 ⟨10, 20⟩ [9, 8, 7]).map Prod.snd).getD ⟨0, 0⟩

/-- The encoded shard set for the packet `[1, 2, 3, 4]`. -/
def shardsB : List (List Nat) := (fecEncode [1, 2, 3, 4]).getD []

end Moonshine

namespace Moonshine

/-! ## Theorems about the control stream (claims C2, C4, C10) -/

/-- Claim C10: `ControlMessage::from_bytes` is claimed to be total and
never panic, in particular for a buffer with type tag `InputData`
(0x0206), declared length equal to buffer length minus 4, and total length
below 8 bytes.  This is false on the code: for the 4-byte buffer
`[0x06, 0x02, 0x00, 0x00]` the parser passes the header checks and then
reads `buffer[4..8]`, which is out of bounds and panics. -/
theorem from_bytes_inputdata_short_panics :
    from_bytes [6, 2, 0, 0] = .panicked := by decide

/-- Claim C2 (amended): a control-stream packet that fails to parse
(buffer shorter than 4 bytes, or declared 16-bit LE length not equal to
the remaining buffer length) is rejected, but at the top level the parse
error propagates out of `ControlStreamInner::run` (the `?` operator) and
terminates the control stream; only a decrypted payload that fails to
parse is dropped with the loop continuing. -/
theorem control_malformed_rejected
    (decrypt : List Nat → List Nat → List Nat → List Nat → Option (List Nat))
    (key packet : List Nat) :
    (packet.length < 4 → from_bytes packet = .err) ∧
    (4 ≤ packet.length →
      u16le (packet.getD 2 0) (packet.getD 3 0) ≠ packet.length - 4 →
      from_bytes packet = .err) ∧
    (from_bytes packet = .err → handlePacket decrypt key packet = .terminated) ∧
    (∀ len seq tag payload plaintext,
      from_bytes packet = .ok (.encrypted len seq tag payload) →
      decrypt key (controlIv seq) payload tag = some plaintext →
      from_bytes plaintext = .err →
      handlePacket decrypt key packet = .cont .dropped) := by
  refine ⟨?_, ?_, ?_, ?_⟩
  · intro h
    simp [from_bytes, h]
  · intro h4 hlen
    unfold from_bytes
    rw [if_neg (Nat.not_lt.mpr h4), if_pos hlen]
  · intro herr
    simp [handlePacket, herr]
  · intro len seq tag payload plaintext hok hdec hperr
    simp [handlePacket, hok, hdec, hperr]

/-- Claim C2 counterexample: the single-byte packet `[0]` does not parse,
and handling it terminates the control stream rather than dropping the
packet and continuing. -/
theorem control_malformed_terminates_cex :
    handlePacket decryptConst0 [] [0] = .terminated ∧
    from_bytes [0] = .err := by decide

/-- Witness for `control_malformed_rejected` at concrete inputs: the
short packet `[0]` terminates the stream, and the well-formed encrypted
packet `encPacketA` whose decrypted plaintext `[0]` fails to parse is
dropped with the loop continuing. -/
theorem control_malformed_rejected_witness :
    handlePacket decryptConst0 [] [1] = .terminated ∧
    handlePacket decryptConst0 [] encPacketA = .cont .dropped := by
  constructor
  · exact (control_malformed_rejected decryptConst0 [] [1]).2.2.1 (by decide)
  · exact (control_malformed_rejected decryptConst0 [] encPacketA).2.2.2
      24 0 (List.replicate 16 0) [9, 9, 9, 9] [0] (by decide) rfl (by decide)

/-- Claim C4: a received `Encrypted` control envelope is decrypted with
the session's current remote-input key and a 16-byte IV whose first byte
is `sequence_number mod 256` and whose remaining 15 bytes are zero; if tag
verification fails the datagram is dropped and the loop continues, so the
session does not terminate.  The decrypt oracle is universally
quantified, so the theorem pins down exactly which key and IV the code
passes to AES-128-GCM. -/
theorem control_encrypted_iv_drop
    (decrypt : List Nat → List Nat → List Nat → List Nat → Option (List Nat))
    (key packet : List Nat) (len seq : Nat) (tag payload : List Nat)
    (hparse : from_bytes packet = .ok (.encrypted len seq tag payload))
    (hfail : decrypt key (seq % 256 :: List.replicate 15 0) payload tag = none) :
    handlePacket decrypt key packet = .cont .dropped := by
  simp only [handlePacket, hparse, controlIv]
  rw [hfail]

/-- Witness for `control_encrypted_iv_drop`: the concrete encrypted
packet `encPacketB` (sequence number 258) under an always-failing decrypt
oracle is dropped; the IV the code uses there is `2 :: 15 zero bytes`
since `258 mod 256 = 2`. -/
theorem control_encrypted_iv_drop_witness :
    handlePacket decryptFail [5] encPacketB = .cont .dropped ∧ 258 % 256 = 2 :=
  ⟨control_encrypted_iv_drop decryptFail [5] encPacketB 24 258
      (List.replicate 16 0) [7, 7, 7, 7] (by decide) rfl,
    rfl⟩

/-! ## Theorems about the audio sample-rate selection (claim C6) -/

/-- Claim C6 is a code bug: the claim (and the function's own doc
comment) says the highest supported sample rate is selected when the
codec reports a list, and 44100 Hz when it reports none.  The source
inverts the null check: with a reported list — here 48000 and 96000 Hz —
it returns 44100 without reading the list, and with no list it returns 0,
because the search loop iterates over the null pointer and never runs. -/
theorem select_sample_rate_bug :
    select_sample_rate (some [48000, 96000]) = 44100 ∧
    select_sample_rate none = 0 := by
  constructor <;> rfl

/-! ## Theorems about the pairing webserver (claims C3, C5, C9) -/

/-- Claim C3 is a code bug: the claim (and the spec) require HTTP 400 for
every malformed pairing request, but the handlers panic instead: a `/pair`
request with no recognised parameter hits `todo!()`; a non-hex
`clientpairingsecret` hits `hex::decode(..).unwrap()`; a decoded secret
that is not 272 bytes hits an explicit `panic!`; a `clientpairingsecret`
arriving before `clientchallenge`/`serverchallengeresp` (no stored
server challenge) hits `server_challenge.unwrap()`; a `serverchallengeresp`
arriving before `clientchallenge` (no stored server secret) hits
`server_secret.unwrap()`. -/
theorem pairing_malformed_panics :
    pair oracleZ [("uniqueid", "abc")] [] = .panicked ∧
    pair oracleZ [("uniqueid", "abc"), ("clientpairingsecret", "zz")] clientsFull = .panicked ∧
    pair oracleZ [("uniqueid", "abc"), ("clientpairingsecret", "00")] clientsFull = .panicked ∧
    pair oracleZ [("uniqueid", "abc"), ("clientpairingsecret", hex544)] clientsKeyOnly
      = .panicked ∧
    pair oracleZ [("uniqueid", "abc"), ("serverchallengeresp", "00")] clientsKeyOnly
      = .panicked := by
  refine ⟨by decide, by decide, by decide, by decide, by decide⟩

/-- Claim C5: on a `clientpairingsecret` request for a known uniqueid
with the prerequisite state present (a stored server challenge and client
hash) and a well-formed 272-byte secret, the server responds with the
paired XML envelope if and only if
`SHA-256(server_challenge ++ client_cert.signature ++ client_secret)`
equals the stored client hash; on mismatch it responds HTTP 400 and the
clients map — which has no Verified state to transition to — is returned
unchanged. -/
theorem client_pairing_secret_accept_iff
    (o : PairingOracles) (params : Params) (clients : ClientsMap)
    (uid csHex : String) (secret : List Nat) (c : Client) (sc ch : List Nat)
    (hp : getParam params ("clientpairingsecret") = some csHex)
    (hdec : hexDecode csHex = some secret)
    (hlen : secret.length = 272)
    (hu : getParam params ("uniqueid") = some uid)
    (hc : clientsGet clients uid = some c)
    (hsc : c.server_challenge = some sc)
    (hch : c.client_hash = some ch) :
    (client_pairing_secret o params clients = .resp (xmlOk none) clients
      ↔ o.sha256 (sc ++ c.pem.signature ++ secret.take 16) = ch) ∧
    (o.sha256 (sc ++ c.pem.signature ++ secret.take 16) ≠ ch →
      client_pairing_secret o params clients = .resp bad_request clients) := by
  have h272 : ¬ secret.length ≠ 256 + 16 := by omega
  unfold client_pairing_secret
  simp only [hp, hdec, hu, hc]
  rw [if_neg h272]
  simp only [hsc, hch]
  by_cases heq : o.sha256 (sc ++ c.pem.signature ++ secret.take 16) = ch
  · rw [if_neg (not_not_intro heq)]
    exact ⟨iff_of_true rfl heq, fun hne => absurd heq hne⟩
  · rw [if_pos heq]
    refine ⟨⟨fun h => ?_, fun h => absurd h heq⟩, fun _ => rfl⟩
    simp [bad_request, xmlOk] at h

/-- Witness for `client_pairing_secret_accept_iff`: with the constant
SHA-256 oracle returning `[9]` and the fully populated client record
(stored client hash `[9]`), the 272-zero-byte secret is accepted with the
paired XML envelope and an unchanged clients map. -/
theorem client_pairing_secret_accept_iff_witness :
    client_pairing_secret oracleH [("uniqueid", "abc"), ("clientpairingsecret", hex544)]
      clientsFull = .resp (xmlOk none) clientsFull :=
  ((client_pairing_secret_accept_iff oracleH
      [("uniqueid", "abc"), ("clientpairingsecret", hex544)] clientsFull
      "abc" hex544 (List.replicate 272 0) clientFull (List.replicate 16 3) [9]
      (by decide) (by decide) (by decide) (by decide) (by decide) (by decide)
      (by decide)).1).mpr (by decide)

/-- Claim C9 counterexample: a successful `/pin` request (status 200)
carries no content-type header and a plain-text body — not the
`application/xml` paired envelope the claim asserts for every successful
response on the pairing surface. -/
theorem pin_success_not_xml_cex :
    (pinHandler oracleZ [("uniqueid", "abc"), ("pin", "1234")] clientsFull).response?
      = some ⟨200, none, .plainText⟩ ∧
    (none : Option String) ≠ some ("application/xml") := by
  refine ⟨by decide, by decide⟩

/-- Claim C9 (amended): every successful (status 200) response of the
`/pair` dispatcher — all five pairing phases — carries the header named
`CONTENT_TYPE` with value `application/xml` and the paired XML envelope,
while successful `/pin` and `/unpair` responses are status 200 with a
plain-text body and no content-type header at all. -/
theorem pairing_success_envelope (o : PairingOracles) (params : Params)
    (clients : ClientsMap) :
    (∀ r cs, pair o params clients = .resp r cs → r.status = 200 →
      r.header_CONTENT_TYPE = some ("application/xml") ∧
      ∃ x, r.body = .pairedXml x) ∧
    (∀ r cs, pinHandler o params clients = .resp r cs → r.status = 200 →
      r.header_CONTENT_TYPE = none ∧ r.body = .plainText) ∧
    (∀ r cs, unpair params clients = .resp r cs → r.status = 200 →
      r.header_CONTENT_TYPE = none ∧ r.body = .plainText) := by
  refine ⟨?_, ?_, ?_⟩
  · intro r cs h h200
    unfold pair get_server_cert pair_challenge client_challenge
      server_challenge_response client_pairing_secret at h
    dsimp only [] at h
    repeat' split at h
    all_goals (try cases h)
    all_goals simp_all [bad_request, xmlOk]
  · intro r cs h h200
    unfold pinHandler at h
    repeat' split at h
    all_goals (try cases h)
    all_goals simp_all [bad_request]
  · intro r cs h h200
    unfold unpair at h
    repeat' split at h
    all_goals (try cases h)
    all_goals simp_all [bad_request]

/-- Witness for `pairing_success_envelope` at concrete inputs: a
successful `pairchallenge` phase response is the XML envelope, and a
successful `/unpair` response is plain text without the header. -/
theorem pairing_success_envelope_witness :
    ((xmlOk none).header_CONTENT_TYPE = some ("application/xml") ∧
      ∃ x, (xmlOk none).body = .pairedXml x) ∧
    ((⟨200, none, .plainText⟩ : HttpResponse).header_CONTENT_TYPE = none ∧
      (⟨200, none, .plainText⟩ : HttpResponse).body = .plainText) := by
  constructor
  · exact (pairing_success_envelope oracleZ
      [("uniqueid", "abc"), ("phrase", "pairchallenge")] clientsFull).1
      (xmlOk none) clientsFull (by decide) (by decide)
  · exact (pairing_success_envelope oracleZ [("uniqueid", "abc")] clientsFull).2.2
      ⟨200, none, .plainText⟩ [] (by decide) (by decide)

end Moonshine

namespace Moonshine

theorem xor_mid_comm (a b c d : Nat) :
    (a ^^^ b) ^^^ (c ^^^ d) = (a ^^^ c) ^^^ (b ^^^ d) := by
  rw [Nat.xor_assoc, Nat.xor_assoc, ← Nat.xor_assoc b c d, Nat.xor_comm b c,
    Nat.xor_assoc c b d]

theorem byte_xor_lt {x y : Nat} (hx : x < 256) (hy : y < 256) : x ^^^ y < 256 := by
  have h : (256 : Nat) = 2 ^ 8 := by norm_num
  rw [h] at hx hy ⊢
  exact Nat.xor_lt_two_pow hx hy

theorem xtime_lt_check : xtimeLtCheck = true := by decide

theorem powSplit_check : powSplitCheck = true := by decide

theorem xtime_lt {x : Nat} (hx : x < 256) : xtime x < 256 := by
  have h := xtime_lt_check
  unfold xtimeLtCheck at h
  rw [List.all_eq_true] at h
  have h1 := h x (List.mem_range.mpr hx)
  exact of_decide_eq_true h1

theorem pow_split {k a : Nat} (hk : k < 9) (ha : a < 2 ^ k) : 2 ^ k ^^^ a = 2 ^ k + a := by
  have h := powSplit_check
  unfold powSplitCheck at h
  rw [List.all_eq_true] at h
  have h1 := h k (List.mem_range.mpr hk)
  simp only [List.all_eq_true] at h1
  have h2 := h1 a (List.mem_range.mpr ha)
  simpa using h2

theorem xor_256 {a : Nat} (ha : a < 256) : 256 ^^^ a = 256 + a :=
  pow_split (k := 8) (a := a) (by omega) ha

theorem mul_two_xor (x y : Nat) : (x ^^^ y) * 2 = x * 2 ^^^ y * 2 := by
  have h : ∀ a : Nat, a * 2 = a <<< 1 := fun a => by rw [Nat.shiftLeft_eq, pow_one]
  rw [h, h, h]
  apply Nat.eq_of_testBit_eq
  intro i
  rw [Nat.testBit_shiftLeft, Nat.testBit_xor, Nat.testBit_xor, Nat.testBit_shiftLeft,
    Nat.testBit_shiftLeft, Bool.and_xor_distrib_left]

theorem xtime_xor {x y : Nat} (hx : x < 256) (hy : y < 256) :
    xtime (x ^^^ y) = xtime x ^^^ xtime y := by
  unfold xtime
  rw [mul_two_xor]
  by_cases h1 : x * 2 ≥ 256 <;> by_cases h2 : y * 2 ≥ 256
  · -- both high: the top bits cancel
    have hxa : x * 2 = 256 ^^^ (x * 2 - 256) := by rw [xor_256 (by omega)]; omega
    have hya : y * 2 = 256 ^^^ (y * 2 - 256) := by rw [xor_256 (by omega)]; omega
    have hv : x * 2 ^^^ y * 2 = (x * 2 - 256) ^^^ (y * 2 - 256) := by
      conv_lhs => rw [hxa, hya]
      rw [xor_mid_comm, Nat.xor_self, Nat.zero_xor]
    have hvlt : x * 2 ^^^ y * 2 < 256 := by
      rw [hv]; exact byte_xor_lt (by omega) (by omega)
    rw [if_neg (by omega), if_pos h1, if_pos h2, xor_mid_comm, Nat.xor_self, Nat.xor_zero]
  · -- x high, y low
    have hxa : x * 2 = 256 ^^^ (x * 2 - 256) := by rw [xor_256 (by omega)]; omega
    have hv : x * 2 ^^^ y * 2 = 256 + ((x * 2 - 256) ^^^ y * 2) := by
      conv_lhs => rw [hxa]
      rw [Nat.xor_assoc, xor_256 (byte_xor_lt (by omega) (by omega))]
    rw [if_pos (by omega), if_pos h1, if_neg h2]
    calc (x * 2 ^^^ y * 2) ^^^ 285
        = x * 2 ^^^ (y * 2 ^^^ 285) := Nat.xor_assoc (x * 2) (y * 2) 285
      _ = x * 2 ^^^ (285 ^^^ y * 2) := by rw [Nat.xor_comm (y * 2) 285]
      _ = (x * 2 ^^^ 285) ^^^ y * 2 := (Nat.xor_assoc (x * 2) 285 (y * 2)).symm
  · -- x low, y high
    have hya : y * 2 = 256 ^^^ (y * 2 - 256) := by rw [xor_256 (by omega)]; omega
    have hv : x * 2 ^^^ y * 2 = 256 + (x * 2 ^^^ (y * 2 - 256)) := by
      conv_lhs => rw [hya]
      rw [Nat.xor_comm (x * 2), Nat.xor_assoc, xor_256 (byte_xor_lt (by omega) (by omega)),
        Nat.xor_comm (y * 2 - 256) (x * 2)]
    rw [if_pos (by omega), if_neg h1, if_pos h2]
    exact Nat.xor_assoc (x * 2) (y * 2) 285
  · -- both low
    have hvlt : x * 2 ^^^ y * 2 < 256 := byte_xor_lt (by omega) (by omega)
    rw [if_neg (by omega), if_neg h1, if_neg h2]

end Moonshine

namespace Moonshine

theorem gfMulFuel_lt : ∀ (n a b : Nat), b < 256 → gfMulFuel n a b < 256
  | 0, _, _, _ => by simp [gfMulFuel]
  | n + 1, a, b, hb => by
    unfold gfMulFuel
    have h1 : (if a % 2 = 1 then b else 0) < 256 := by split <;> omega
    exact byte_xor_lt h1 (gfMulFuel_lt n (a / 2) (xtime b) (xtime_lt hb))

theorem gfMul_lt {b : Nat} (a : Nat) (hb : b < 256) : gfMul a b < 256 :=
  gfMulFuel_lt 8 a b hb

theorem gfMulFuel_xor : ∀ (n a x y : Nat), x < 256 → y < 256 →
    gfMulFuel n a (x ^^^ y) = gfMulFuel n a x ^^^ gfMulFuel n a y
  | 0, _, _, _, _, _ => by simp [gfMulFuel]
  | n + 1, a, x, y, hx, hy => by
    unfold gfMulFuel
    rw [xtime_xor hx hy,
      gfMulFuel_xor n (a / 2) (xtime x) (xtime y) (xtime_lt hx) (xtime_lt hy)]
    by_cases hc : a % 2 = 1
    · simp only [hc, if_pos]
      exact xor_mid_comm x y (gfMulFuel n (a / 2) (xtime x)) (gfMulFuel n (a / 2) (xtime y))
    · simp [hc]

theorem gfMul_xor (a : Nat) {x y : Nat} (hx : x < 256) (hy : y < 256) :
    gfMul a (x ^^^ y) = gfMul a x ^^^ gfMul a y :=
  gfMulFuel_xor 8 a x y hx hy

theorem xorVec_getD : ∀ (u v : List Nat), u.length = v.length → ∀ i,
    (xorVec u v).getD i 0 = u.getD i 0 ^^^ v.getD i 0
  | [], [], _, i => by simp [xorVec]
  | [], _ :: _, h, _ => by simp at h
  | _ :: _, [], h, _ => by simp at h
  | _ :: _, _ :: _, _, 0 => by simp [xorVec]
  | a :: u, b :: v, h, i + 1 => by
    simp only [xorVec, List.zipWith_cons_cons, List.getD_cons_succ]
    exact xorVec_getD u v (by simpa using h) i

theorem length_xorVec (u v : List Nat) : (xorVec u v).length = min u.length v.length := by
  simp [xorVec]

theorem xorVec_map {α : Type} (s : List α) (f g : α → Nat) :
    xorVec (s.map f) (s.map g) = s.map (fun i => f i ^^^ g i) := by
  induction s with
  | nil => rfl
  | cons a s ih =>
    simp only [List.map_cons, xorVec, List.zipWith_cons_cons]
    exact congrArg _ ih

theorem xorVec_lt : ∀ (u v : List Nat), (∀ b ∈ u, b < 256) → (∀ b ∈ v, b < 256) →
    ∀ b ∈ xorVec u v, b < 256
  | [], _, _, _ => by simp [xorVec]
  | _ :: _, [], _, _ => by simp [xorVec]
  | a :: u, c :: v, hu, hv => by
    intro b hb
    simp only [xorVec, List.zipWith_cons_cons, List.mem_cons] at hb
    rcases hb with rfl | hb
    · exact byte_xor_lt (hu a (by simp)) (hv c (by simp))
    · exact xorVec_lt u v (fun x hx => hu x (by simp [hx])) (fun x hx => hv x (by simp [hx]))
        b hb

theorem getD_lt_of_forall {l : List Nat} (hb : ∀ b ∈ l, b < 256) (i : Nat) :
    l.getD i 0 < 256 := by
  by_cases h : i < l.length
  · rw [List.getD_eq_getElem l 0 h]
    exact hb _ (List.getElem_mem h)
  · rw [List.getD_eq_default l 0 (by omega)]
    omega

theorem list4_destruct : ∀ (u : List Nat), u.length = 4 →
    ∃ a0 a1 a2 a3, u = [a0, a1, a2, a3]
  | [a0, a1, a2, a3], _ => ⟨a0, a1, a2, a3, rfl⟩
  | [], h => by simp at h
  | [_], h => by simp at h
  | [_, _], h => by simp at h
  | [_, _, _], h => by simp at h
  | _ :: _ :: _ :: _ :: _ :: _, h => by simp at h

theorem rsEncodeByte_cons (a0 a1 a2 a3 : Nat) :
    rsEncodeByte [a0, a1, a2, a3] =
      [a0, a1, a2, a3, a0 ^^^ a1 ^^^ a2 ^^^ a3,
        a0 ^^^ gfMul 2 a1 ^^^ gfMul 4 a2 ^^^ gfMul 8 a3] := rfl

theorem parity1_xor (a0 a1 a2 a3 b0 b1 b2 b3 : Nat) :
    (a0 ^^^ b0) ^^^ (a1 ^^^ b1) ^^^ (a2 ^^^ b2) ^^^ (a3 ^^^ b3) =
      (a0 ^^^ a1 ^^^ a2 ^^^ a3) ^^^ (b0 ^^^ b1 ^^^ b2 ^^^ b3) := by
  rw [xor_mid_comm a0 b0 a1 b1, xor_mid_comm (a0 ^^^ a1) (b0 ^^^ b1) a2 b2,
    xor_mid_comm (a0 ^^^ a1 ^^^ a2) (b0 ^^^ b1 ^^^ b2) a3 b3]

theorem parity2_xor (a0 a1 a2 a3 b0 b1 b2 b3 : Nat)
    (ha1 : a1 < 256) (ha2 : a2 < 256) (ha3 : a3 < 256)
    (hb1 : b1 < 256) (hb2 : b2 < 256) (hb3 : b3 < 256) :
    (a0 ^^^ b0) ^^^ gfMul 2 (a1 ^^^ b1) ^^^ gfMul 4 (a2 ^^^ b2) ^^^ gfMul 8 (a3 ^^^ b3) =
      (a0 ^^^ gfMul 2 a1 ^^^ gfMul 4 a2 ^^^ gfMul 8 a3) ^^^
        (b0 ^^^ gfMul 2 b1 ^^^ gfMul 4 b2 ^^^ gfMul 8 b3) := by
  rw [gfMul_xor 2 ha1 hb1, gfMul_xor 4 ha2 hb2, gfMul_xor 8 ha3 hb3,
    xor_mid_comm a0 b0 (gfMul 2 a1) (gfMul 2 b1),
    xor_mid_comm (a0 ^^^ gfMul 2 a1) (b0 ^^^ gfMul 2 b1) (gfMul 4 a2) (gfMul 4 b2),
    xor_mid_comm (a0 ^^^ gfMul 2 a1 ^^^ gfMul 4 a2) (b0 ^^^ gfMul 2 b1 ^^^ gfMul 4 b2)
      (gfMul 8 a3) (gfMul 8 b3)]

theorem rsEncodeByte_xor (a0 a1 a2 a3 b0 b1 b2 b3 : Nat)
    (ha1 : a1 < 256) (ha2 : a2 < 256) (ha3 : a3 < 256)
    (hb1 : b1 < 256) (hb2 : b2 < 256) (hb3 : b3 < 256) :
    rsEncodeByte (xorVec [a0, a1, a2, a3] [b0, b1, b2, b3]) =
      xorVec (rsEncodeByte [a0, a1, a2, a3]) (rsEncodeByte [b0, b1, b2, b3]) := by
  show rsEncodeByte [a0 ^^^ b0, a1 ^^^ b1, a2 ^^^ b2, a3 ^^^ b3] = _
  rw [rsEncodeByte_cons, rsEncodeByte_cons, rsEncodeByte_cons]
  show _ = [a0 ^^^ b0, a1 ^^^ b1, a2 ^^^ b2, a3 ^^^ b3,
    (a0 ^^^ a1 ^^^ a2 ^^^ a3) ^^^ (b0 ^^^ b1 ^^^ b2 ^^^ b3),
    (a0 ^^^ gfMul 2 a1 ^^^ gfMul 4 a2 ^^^ gfMul 8 a3) ^^^
      (b0 ^^^ gfMul 2 b1 ^^^ gfMul 4 b2 ^^^ gfMul 8 b3)]
  rw [parity1_xor, parity2_xor a0 a1 a2 a3 b0 b1 b2 b3 ha1 ha2 ha3 hb1 hb2 hb3]

theorem rsEncodeByte_lt (a0 a1 a2 a3 : Nat)
    (h0 : a0 < 256) (h1 : a1 < 256) (h2 : a2 < 256) (h3 : a3 < 256) :
    ∀ b ∈ rsEncodeByte [a0, a1, a2, a3], b < 256 := by
  rw [rsEncodeByte_cons]
  intro b hb
  simp only [List.mem_cons, List.not_mem_nil, or_false] at hb
  rcases hb with rfl | rfl | rfl | rfl | rfl | rfl
  · exact h0
  · exact h1
  · exact h2
  · exact h3
  · exact byte_xor_lt (byte_xor_lt (byte_xor_lt h0 h1) h2) h3
  · exact byte_xor_lt (byte_xor_lt (byte_xor_lt h0 (gfMul_lt 2 h1)) (gfMul_lt 4 h2))
      (gfMul_lt 8 h3)

theorem length_rsEncodeByte (d : List Nat) : (rsEncodeByte d).length = 6 := rfl

theorem selectVec_xor (s e f : List Nat) (hef : e.length = f.length) :
    selectVec s (xorVec e f) = xorVec (selectVec s e) (selectVec s f) := by
  unfold selectVec
  rw [xorVec_map]
  exact List.map_congr_left (fun i _ => xorVec_getD e f hef i)

theorem length_selectVec (s e : List Nat) : (selectVec s e).length = s.length := by
  simp [selectVec]

theorem selectVec_lt {e : List Nat} (he : ∀ b ∈ e, b < 256) (s : List Nat) :
    ∀ b ∈ selectVec s e, b < 256 := by
  intro b hb
  simp only [selectVec, List.mem_map] at hb
  obtain ⟨i, _, rfl⟩ := hb
  exact getD_lt_of_forall he i

theorem rowDot_xor (row : List Nat) (w w' : List Nat) (hlen : w.length = w'.length)
    (hw : ∀ b ∈ w, b < 256) (hw' : ∀ b ∈ w', b < 256) :
    rowDot row (xorVec w w') = rowDot row w ^^^ rowDot row w' := by
  unfold rowDot
  rw [xorVec_getD w w' hlen 0, xorVec_getD w w' hlen 1, xorVec_getD w w' hlen 2,
    xorVec_getD w w' hlen 3,
    gfMul_xor _ (getD_lt_of_forall hw 0) (getD_lt_of_forall hw' 0),
    gfMul_xor _ (getD_lt_of_forall hw 1) (getD_lt_of_forall hw' 1),
    gfMul_xor _ (getD_lt_of_forall hw 2) (getD_lt_of_forall hw' 2),
    gfMul_xor _ (getD_lt_of_forall hw 3) (getD_lt_of_forall hw' 3)]
  exact parity1_xor (gfMul (row.getD 0 0) (w.getD 0 0)) (gfMul (row.getD 1 0) (w.getD 1 0))
    (gfMul (row.getD 2 0) (w.getD 2 0)) (gfMul (row.getD 3 0) (w.getD 3 0))
    (gfMul (row.getD 0 0) (w'.getD 0 0)) (gfMul (row.getD 1 0) (w'.getD 1 0))
    (gfMul (row.getD 2 0) (w'.getD 2 0)) (gfMul (row.getD 3 0) (w'.getD 3 0))

theorem rsDecodeByte_xor (s w w' : List Nat) (hlen : w.length = w'.length)
    (hw : ∀ b ∈ w, b < 256) (hw' : ∀ b ∈ w', b < 256) :
    rsDecodeByte s (xorVec w w') = xorVec (rsDecodeByte s w) (rsDecodeByte s w') := by
  unfold rsDecodeByte
  rw [xorVec_map]
  exact List.map_congr_left (fun row _ => rowDot_xor row w w' hlen hw hw')

theorem rsReconstructByte_xor (s u v : List Nat) (hu : u.length = 4) (hv : v.length = 4)
    (hub : ∀ b ∈ u, b < 256) (hvb : ∀ b ∈ v, b < 256) :
    rsReconstructByte s (xorVec u v) =
      xorVec (rsReconstructByte s u) (rsReconstructByte s v) := by
  obtain ⟨a0, a1, a2, a3, rfl⟩ := list4_destruct u hu
  obtain ⟨b0, b1, b2, b3, rfl⟩ := list4_destruct v hv
  have ha0 : a0 < 256 := hub a0 (by simp)
  have ha1 : a1 < 256 := hub a1 (by simp)
  have ha2 : a2 < 256 := hub a2 (by simp)
  have ha3 : a3 < 256 := hub a3 (by simp)
  have hb0 : b0 < 256 := hvb b0 (by simp)
  have hb1 : b1 < 256 := hvb b1 (by simp)
  have hb2 : b2 < 256 := hvb b2 (by simp)
  have hb3 : b3 < 256 := hvb b3 (by simp)
  unfold rsReconstructByte
  rw [rsEncodeByte_xor a0 a1 a2 a3 b0 b1 b2 b3 ha1 ha2 ha3 hb1 hb2 hb3,
    selectVec_xor s _ _ (by rw [length_rsEncodeByte, length_rsEncodeByte]),
    rsDecodeByte_xor s _ _
      (by rw [length_selectVec, length_selectVec])
      (selectVec_lt (rsEncodeByte_lt a0 a1 a2 a3 ha0 ha1 ha2 ha3) s)
      (selectVec_lt (rsEncodeByte_lt b0 b1 b2 b3 hb0 hb1 hb2 hb3) s)]

theorem unitVec_length (i x : Nat) : (unitVec i x).length = 4 := by
  rcases i with _ | _ | _ | i <;> rfl

theorem unitVec_lt {x : Nat} (hx : x < 256) (i : Nat) : ∀ b ∈ unitVec i x, b < 256 := by
  rcases i with _ | _ | _ | i <;>
    · intro b hb
      simp only [unitVec, List.mem_cons, List.not_mem_nil, or_false] at hb
      rcases hb with rfl | rfl | rfl | rfl <;> omega


set_option maxHeartbeats 4000000 in
theorem rs_unit_check : rsUnitCheck = true := by decide

theorem rs_unit_base {s : List Nat} (hs : s ∈ rsPatterns) {i : Nat} (hi : i < 4) :
    rsReconstructByte s (unitVec i 0) = unitVec i 0 ∧
    ∀ k < 8, rsReconstructByte s (unitVec i (2 ^ k)) = unitVec i (2 ^ k) := by
  have h := rs_unit_check
  unfold rsUnitCheck at h
  rw [List.all_eq_true] at h
  have h1 := h s hs
  simp only [List.all_eq_true, Bool.and_eq_true, beq_iff_eq] at h1
  have h2 := h1 i (List.mem_range.mpr hi)
  exact ⟨h2.1, fun k hk => h2.2 k (List.mem_range.mpr hk)⟩

theorem unitVec_xor (i h l : Nat) :
    unitVec i (h ^^^ l) = xorVec (unitVec i h) (unitVec i l) := by
  rcases i with _ | _ | _ | i <;> simp [unitVec, xorVec]

theorem rs_unit_ok {s : List Nat} (hs : s ∈ rsPatterns) {i : Nat} (hi : i < 4)
    {x : Nat} (hx : x < 256) :
    rsReconstructByte s (unitVec i x) = unitVec i x := by
  suffices h : ∀ k, k ≤ 8 → ∀ x, x < 2 ^ k → rsReconstructByte s (unitVec i x) = unitVec i x by
    exact h 8 (Nat.le_refl 8) x hx
  intro k
  induction k with
  | zero =>
    intro _ x hx1
    rw [pow_zero] at hx1
    have hx0 : x = 0 := by omega
    subst hx0
    exact (rs_unit_base hs hi).1
  | succ k ih =>
    intro hk8 x hx1
    by_cases hxk : x < 2 ^ k
    · exact ih (by omega) x hxk
    · have hpow : (2 : Nat) ^ (k + 1) = 2 * 2 ^ k := by rw [pow_succ]; ring
      have hrlt : x - 2 ^ k < 2 ^ k := by omega
      have hsplit : 2 ^ k ^^^ (x - 2 ^ k) = x := by
        rw [pow_split (by omega) hrlt]; omega
      have h2k256 : (2 : Nat) ^ k < 256 :=
        lt_of_le_of_lt (Nat.pow_le_pow_right (by omega) (show k ≤ 7 by omega))
          (by norm_num)
      rw [← hsplit, unitVec_xor,
        rsReconstructByte_xor s _ _ (unitVec_length i _) (unitVec_length i _)
          (unitVec_lt h2k256 i) (unitVec_lt (show x - 2 ^ k < 256 by omega) i),
        (rs_unit_base hs hi).2 k (by omega), ih (by omega) (x - 2 ^ k) hrlt]

theorem rs_reconstruct_ok {s : List Nat} (hs : s ∈ rsPatterns)
    {d0 d1 d2 d3 : Nat} (h0 : d0 < 256) (h1 : d1 < 256) (h2 : d2 < 256) (h3 : d3 < 256) :
    rsReconstructByte s [d0, d1, d2, d3] = [d0, d1, d2, d3] := by
  have e23 : (xorVec (unitVec 2 d2) (unitVec 3 d3)).length = 4 := by
    simp [length_xorVec, unitVec_length]
  have b23 : ∀ b ∈ xorVec (unitVec 2 d2) (unitVec 3 d3), b < 256 :=
    xorVec_lt _ _ (unitVec_lt h2 2) (unitVec_lt h3 3)
  have e123 : (xorVec (unitVec 1 d1) (xorVec (unitVec 2 d2) (unitVec 3 d3))).length = 4 := by
    simp [length_xorVec, unitVec_length, e23]
  have b123 : ∀ b ∈ xorVec (unitVec 1 d1) (xorVec (unitVec 2 d2) (unitVec 3 d3)), b < 256 :=
    xorVec_lt _ _ (unitVec_lt h1 1) b23
  have e1 : [d0, d1, d2, d3] = xorVec (unitVec 0 d0)
      (xorVec (unitVec 1 d1) (xorVec (unitVec 2 d2) (unitVec 3 d3))) := by
    simp [unitVec, xorVec]
  rw [e1,
    rsReconstructByte_xor s _ _ (unitVec_length 0 d0) e123 (unitVec_lt h0 0) b123,
    rsReconstructByte_xor s _ _ (unitVec_length 1 d1) e23 (unitVec_lt h1 1) b23,
    rsReconstructByte_xor s _ _ (unitVec_length 2 d2) (unitVec_length 3 d3)
      (unitVec_lt h2 2) (unitVec_lt h3 3),
    rs_unit_ok hs (by omega) h0, rs_unit_ok hs (by omega) h1,
    rs_unit_ok hs (by omega) h2, rs_unit_ok hs (by omega) h3]


end Moonshine

namespace Moonshine

theorem getD_range_map {α : Type} (n j : Nat) (f : Nat → α) (d : α) (hj : j < n) :
    ((List.range n).map f).getD j d = f j := by
  rw [List.getD_eq_getElem?_getD, List.getElem?_map, List.getElem?_range hj]
  rfl

theorem buildDataShard_some {packet : List Nat} {S i : Nat} {sh : List Nat}
    (h : buildDataShard packet S i = some sh) :
    sh = ((packet.drop (i * S)).take (min ((i + 1) * S) packet.length - i * S)) ++
      List.replicate (S - (min ((i + 1) * S) packet.length - i * S)) 0 := by
  unfold buildDataShard at h
  dsimp only at h
  split at h
  · cases h
  · cases h
    rfl

theorem length_buildDataShard {packet : List Nat} {S i : Nat} {sh : List Nat}
    (h : buildDataShard packet S i = some sh) : sh.length = S := by
  rw [buildDataShard_some h]
  have hm : (i + 1) * S = i * S + S := by ring
  simp only [List.length_append, List.length_take, List.length_drop, List.length_replicate]
  omega

theorem buildDataShard_lt {packet : List Nat} {S i : Nat} {sh : List Nat}
    (hB : ∀ b ∈ packet, b < 256) (h : buildDataShard packet S i = some sh) :
    ∀ b ∈ sh, b < 256 := by
  rw [buildDataShard_some h]
  intro b hb
  rcases List.mem_append.mp hb with hb | hb
  · exact hB b ((List.drop_subset _ _) ((List.take_subset _ _) hb))
  · rw [List.eq_of_mem_replicate hb]
    omega

theorem buildDataShards_some {packet : List Nat} {ds : List (List Nat)}
    (h : buildDataShards packet = some ds) :
    ∃ s0 s1 s2 s3, ds = [s0, s1, s2, s3] ∧
      buildDataShard packet (shardSize packet.length) 0 = some s0 ∧
      buildDataShard packet (shardSize packet.length) 1 = some s1 ∧
      buildDataShard packet (shardSize packet.length) 2 = some s2 ∧
      buildDataShard packet (shardSize packet.length) 3 = some s3 := by
  unfold buildDataShards at h
  dsimp only at h
  repeat' split at h
  all_goals (try cases h)
  exact ⟨_, _, _, _, rfl, by assumption, by assumption, by assumption, by assumption⟩

theorem fecEncode_some {packet : List Nat} {shards : List (List Nat)}
    (h : fecEncode packet = some shards) :
    ∃ s0 s1 s2 s3,
      buildDataShard packet (shardSize packet.length) 0 = some s0 ∧
      buildDataShard packet (shardSize packet.length) 1 = some s1 ∧
      buildDataShard packet (shardSize packet.length) 2 = some s2 ∧
      buildDataShard packet (shardSize packet.length) 3 = some s3 ∧
      shardSize packet.length ≠ 0 ∧
      shards = [s0, s1, s2, s3,
        (List.range (shardSize packet.length)).map
          (fun t => (rsEncodeByte (bytesAt [s0, s1, s2, s3] t)).getD 4 0),
        (List.range (shardSize packet.length)).map
          (fun t => (rsEncodeByte (bytesAt [s0, s1, s2, s3] t)).getD 5 0)] := by
  unfold fecEncode at h
  split at h
  · cases h
  · rename_i ds hds
    obtain ⟨s0, s1, s2, s3, rfl, h0, h1, h2, h3⟩ := buildDataShards_some hds
    dsimp only at h
    split at h
    · cases h
    · rename_i hS
      cases h
      exact ⟨s0, s1, s2, s3, h0, h1, h2, h3, hS, rfl⟩

end Moonshine

namespace Moonshine

theorem length_rtpSerialize (a b : Nat) : (rtpSerialize a b).length = 12 := rfl

theorem seqOf_rtp (a b : Nat) (sh : List Nat) (ha : a < 65536) :
    seqOfDatagram (rtpSerialize a b ++ sh) = a := by
  unfold seqOfDatagram rtpSerialize
  rw [List.getD_append _ _ _ _ (by simp), List.getD_append _ _ _ _ (by simp)]
  simp only [List.getD_cons_succ, List.getD_cons_zero]
  omega

theorem tsOf_rtp (a b : Nat) (sh : List Nat) :
    tsOfDatagram (rtpSerialize a b ++ sh) = b % 4294967296 := by
  unfold tsOfDatagram rtpSerialize
  rw [List.getD_append _ _ _ _ (by simp), List.getD_append _ _ _ _ (by simp),
    List.getD_append _ _ _ _ (by simp), List.getD_append _ _ _ _ (by simp)]
  simp only [List.getD_cons_succ, List.getD_cons_zero]
  omega

/-- Claim C7 (amended): for every packet whose FEC step does not panic
(`fecEncode` succeeds, which for non-empty packets fails exactly for the
lengths 1, 2 and 5 whose shard loop underflows), the step builds 4 data
shards where shard `i` holds bytes `[i*S, min((i+1)*S, L))` zero-padded to
`S = ceil(L/4)`, appends 2 parity shards for 6 in total, and the shards
are Reed-Solomon encoded so that for every survivor set of 4 of the 6
shards (any 2 erased) and every byte position, decoding reconstructs the
original data-shard bytes byte-for-byte. -/
theorem fec_shards_reconstruction (packet : List Nat) (shards : List (List Nat))
    (hB : ∀ b ∈ packet, b < 256) (h : fecEncode packet = some shards) :
    shards.length = 6 ∧
    (∀ i < 4, shards.getD i [] =
      ((packet.drop (i * shardSize packet.length)).take
          (min ((i + 1) * shardSize packet.length) packet.length -
            i * shardSize packet.length)) ++
        List.replicate (shardSize packet.length -
          (min ((i + 1) * shardSize packet.length) packet.length -
            i * shardSize packet.length)) 0) ∧
    (∀ s ∈ rsPatterns, ∀ t < shardSize packet.length,
      rsDecodeByte s (selectVec s (bytesAt shards t)) = bytesAt (shards.take 4) t) := by
  obtain ⟨s0, s1, s2, s3, h0, h1, h2, h3, hS, rfl⟩ := fecEncode_some h
  refine ⟨rfl, ?_, ?_⟩
  · intro i hi
    interval_cases i
    · simpa using buildDataShard_some h0
    · simpa using buildDataShard_some h1
    · simpa using buildDataShard_some h2
    · simpa using buildDataShard_some h3
  · intro s hs t ht
    simp only [List.take_succ_cons, List.take_zero]
    unfold bytesAt
    simp only [List.map_cons, List.map_nil]
    rw [getD_range_map _ _ _ _ ht, getD_range_map _ _ _ _ ht]
    rw [rsEncodeByte_cons]
    simp only [List.getD_cons_succ, List.getD_cons_zero]
    exact rs_reconstruct_ok hs
      (getD_lt_of_forall (buildDataShard_lt hB h0) t)
      (getD_lt_of_forall (buildDataShard_lt hB h1) t)
      (getD_lt_of_forall (buildDataShard_lt hB h2) t)
      (getD_lt_of_forall (buildDataShard_lt hB h3) t)

/-- Claim C1 (amended): when `send_packet` completes without panicking it
emits 7 UDP datagrams for the encoded packet, not 6: first the raw
encoded packet itself, then one datagram per FEC shard whose length is
the 12-byte RTP header plus `ceil(L/4)` shard bytes. -/
theorem send_packet_datagrams (dur : Nat) (st : AudioState) (packet : List Nat)
    (dgrams : List (List Nat)) (st' : AudioState)
    (h : send_packet dur st packet = some (dgrams, st')) :
    dgrams.length = 7 ∧
    dgrams.getD 0 [] = packet ∧
    ∀ i, 1 ≤ i → i ≤ 6 →
      (dgrams.getD i []).length = RTP_HEADER_SIZE + shardSize packet.length := by
  unfold send_packet at h
  split at h
  · cases h
  · rename_i shards heq
    obtain ⟨s0, s1, s2, s3, h0, h1, h2, h3, hS, rfl⟩ := fecEncode_some heq
    cases h
    refine ⟨by simp, rfl, ?_⟩
    intro i h1i h6i
    obtain ⟨j, rfl⟩ : ∃ j, i = j + 1 := ⟨i - 1, by omega⟩
    have hj : j < 6 := by omega
    rw [List.getD_cons_succ,
      getD_range_map _ _ _ _ (by simp only [List.length_cons, List.length_nil]; omega)]
    simp only [List.length_append, length_rtpSerialize]
    unfold RTP_HEADER_SIZE
    interval_cases j
    · simp only [List.getD_cons_zero]
      rw [length_buildDataShard h0]
    · simp only [List.getD_cons_succ, List.getD_cons_zero]
      rw [length_buildDataShard h1]
    · simp only [List.getD_cons_succ, List.getD_cons_zero]
      rw [length_buildDataShard h2]
    · simp only [List.getD_cons_succ, List.getD_cons_zero]
      rw [length_buildDataShard h3]
    · simp only [List.getD_cons_succ, List.getD_cons_zero]
      simp
    · simp only [List.getD_cons_succ, List.getD_cons_zero]
      simp

/-- Claim C8 (amended): within one audio stream, the RTP sequence number
carried by the shard datagrams increments by exactly one **modulo 2^16**
per emitted shard (the counter is a wrapping `u16`), so it is strictly
monotonic only while no wraparound occurs; the timestamp is the same for
all 6 shards of one encoded packet and the stored timestamp advances by
`packet_duration` modulo 2^32 once per encoded packet. -/
theorem send_packet_seq_ts (dur : Nat) (st : AudioState) (packet : List Nat)
    (dgrams : List (List Nat)) (st' : AudioState)
    (h : send_packet dur st packet = some (dgrams, st')) :
    (∀ i < 6, seqOfDatagram (dgrams.getD (i + 1) []) = (st.sequence_number + i) % 65536) ∧
    (∀ i < 6, tsOfDatagram (dgrams.getD (i + 1) []) = st.timestamp % 4294967296) ∧
    (st.sequence_number + 5 < 65536 → ∀ i j, i < j → j < 6 →
      seqOfDatagram (dgrams.getD (i + 1) []) < seqOfDatagram (dgrams.getD (j + 1) [])) ∧
    st'.sequence_number = (st.sequence_number + 6) % 65536 ∧
    st'.timestamp = (st.timestamp + dur) % 4294967296 := by
  unfold send_packet at h
  split at h
  · cases h
  · rename_i shards heq
    obtain ⟨s0, s1, s2, s3, h0, h1, h2, h3, hS, rfl⟩ := fecEncode_some heq
    cases h
    have hA : ∀ i < 6, seqOfDatagram
        (((packet :: (List.range
            ([s0, s1, s2, s3,
              (List.range (shardSize packet.length)).map
                (fun t => (rsEncodeByte (bytesAt [s0, s1, s2, s3] t)).getD 4 0),
              (List.range (shardSize packet.length)).map
                (fun t => (rsEncodeByte (bytesAt [s0, s1, s2, s3] t)).getD 5 0)] :
              List (List Nat)).length).map (fun i =>
            rtpSerialize ((st.sequence_number + i) % 65536) st.timestamp ++
              [s0, s1, s2, s3,
                (List.range (shardSize packet.length)).map
                  (fun t => (rsEncodeByte (bytesAt [s0, s1, s2, s3] t)).getD 4 0),
                (List.range (shardSize packet.length)).map
                  (fun t => (rsEncodeByte (bytesAt [s0, s1, s2, s3] t)).getD 5 0)].getD i [])) :
          List (List Nat)).getD (i + 1) []) = (st.sequence_number + i) % 65536 := by
      intro i hi
      rw [List.getD_cons_succ,
        getD_range_map _ _ _ _ (by simp only [List.length_cons, List.length_nil]; omega)]
      exact seqOf_rtp _ _ _ (Nat.mod_lt _ (by omega))
    refine ⟨hA, ?_, ?_, by simp, by simp⟩
    · intro i hi
      rw [List.getD_cons_succ,
        getD_range_map _ _ _ _ (by simp only [List.length_cons, List.length_nil]; omega)]
      exact tsOf_rtp _ _ _
    · intro hbound i j hij hj6
      rw [hA i (by omega), hA j hj6,
        Nat.mod_eq_of_lt (by omega), Nat.mod_eq_of_lt (by omega)]
      omega

end Moonshine

namespace Moonshine

/-- Claim C1 counterexample: for the 4-byte encoded packet `[1, 2, 3, 4]`
the audio stream sends 7 datagrams, not the claimed 6 - the raw encoded
packet is sent before the 6 shard datagrams. -/
theorem send_packet_seven_not_six :
    (send_packet 5 ⟨0, 0⟩ [1, 2, 3, 4]).map (fun r => r.1.length) = some 7 ∧ 7 ≠ 6 := by
  refine ⟨by decide, by decide⟩

/-- Witness for `send_packet_datagrams` at the packet `[1, 2, 3, 4]`
(shard size 1): 7 datagrams, the first shard datagram being 13 bytes. -/
theorem send_packet_datagrams_witness :
    dgramsA.length = 7 ∧ (dgramsA.getD 1 []).length = RTP_HEADER_SIZE + 1 := by
  obtain ⟨h1, h2, h3⟩ := send_packet_datagrams 5 ⟨0, 0⟩ [1, 2, 3, 4] dgramsA stA (by decide)
  exact ⟨h1, h3 1 (by decide) (by decide)⟩

/-- Claim C7 counterexample: for a packet of length 1 the shard loop
underflows - shard 2 has `start = 2 > end = min(3, 1) = 1` and the
source's `end - start` slice panics - so the FEC step does not build the
claimed shards. -/
theorem fec_underflow_cex :
    fecEncode [7] = none ∧ buildDataShard [7] (shardSize 1) 2 = none := by
  refine ⟨by decide, by decide⟩

/-- Witness for `fec_shards_reconstruction` at the packet
`[1, 2, 3, 4]`: 6 shards, and erasing shards 0 and 1 (survivor set
`[2, 3, 4, 5]`) still reconstructs the data bytes at position 0. -/
theorem fec_shards_reconstruction_witness :
    shardsB.length = 6 ∧
    rsDecodeByte [2, 3, 4, 5] (selectVec [2, 3, 4, 5] (bytesAt shardsB 0)) =
      bytesAt (shardsB.take 4) 0 := by
  obtain ⟨h1, h2, h3⟩ := fec_shards_reconstruction [1, 2, 3, 4] shardsB (by decide) (by decide)
  exact ⟨h1, h3 [2, 3, 4, 5] (by decide) 0 (by decide)⟩

/-- Claim C8 counterexample: starting from sequence number 65535 (a
reachable u16 state after 65535 shards), the first two shard datagrams of
the next packet carry sequence numbers 65535 and then 0 - the sequence is
not strictly monotonic across the stream once the u16 counter wraps. -/
theorem seq_wraparound_cex :
    (send_packet 5 ⟨65535, 0⟩ [1, 2, 3, 4]).map
        (fun r => (seqOfDatagram (r.1.getD 1 []), seqOfDatagram (r.1.getD 2 []))) =
      some (65535, 0) ∧ ¬ (65535 < 0) := by
  refine ⟨by decide, by decide⟩

/-- Witness for `send_packet_seq_ts` at the packet `[9, 8, 7]` from
counters `(10, 20)` with packet duration 3. -/
theorem send_packet_seq_ts_witness :
    seqOfDatagram (dgramsC.getD 1 []) = (10 + 0) % 65536 ∧
    tsOfDatagram (dgramsC.getD 1 []) = 20 % 4294967296 ∧
    seqOfDatagram (dgramsC.getD 1 []) < seqOfDatagram (dgramsC.getD 2 []) ∧
    stC.sequence_number = (10 + 6) % 65536 ∧
    stC.timestamp = (20 + 3) % 4294967296 := by
  obtain ⟨h1, h2, h3, h4, h5⟩ := send_packet_seq_ts 3 ⟨10, 20⟩ [9, 8, 7] dgramsC stC (by decide)
  exact ⟨h1 0 (by decide), h2 0 (by decide), h3 (by decide) 0 1 (by decide) (by decide), h4, h5⟩

end Moonshine
